import Mathlib

/-!
# listener-radio: verification of the store, decoder fan-in and scheduler

A shallow embedding of the core of the `listener-radio` gossip listener.
The `messages` table (`messages(id bigserial pk, message jsonb)`) is a list
of rows carrying the JSON fields the queries touch; each SQL statement of
`src/db/resolver.rs` is translated into a list-level function, and the
message-processing and scheduler code of `src/operator/mod.rs` into pure
state-passing functions.  Machine integers (`i64`, `u64`, `i32`) are `Int`
or `Nat`: none of the translated operations can overflow them on real data,
and no wrap-around arithmetic occurs in the source.
-/

namespace ListenerRadio

/-- The JSON document stored in the `message` column, restricted to the
fields the resolver queries read: `message->>'nonce'` (cast to `bigint`;
`none` models a row whose JSON has no parsable `nonce`, for which the SQL
text extraction yields NULL and every comparison on the cast is NULL, so
the row never satisfies a WHERE predicate on it), `message->>'graph_account'`
and `message->>'identifier'`. -/
structure StoredMessage where
  nonce : Option Int
  graph_account : String
  identifier : String
  deriving DecidableEq, Repr

/-- One row of the `messages` table: `id bigserial primary key` plus the
JSON document. -/
structure MsgRow where
  id : Int
  message : StoredMessage
  deriving DecidableEq, Repr

/-- The `messages` table.  The list order is the table's `id` order
(insertion order); the primary key makes the `id`s pairwise distinct,
which theorems take as the `Nodup` hypothesis. -/
abbrev MessagesTable := List MsgRow

/-! ## `retain_max_storage` (src/db/resolver.rs, lines 184-219) -/

/-- `SELECT id FROM messages ORDER BY id DESC LIMIT max_storage`:
the ids of the `max_storage` newest messages. -/
def topIds (table : MessagesTable) (max_storage : Nat) : List Int :=
  (List.insertionSort (· ≥ ·) (table.map MsgRow.id)).take max_storage

/-- `retain_max_storage`: find the top ids, then
`DELETE FROM messages WHERE id NOT IN (SELECT unnest($1::int8[])) RETURNING id`
and return the length of the deleted list.  The result is the table after
the delete together with the returned count. -/
def retain_max_storage (table : MessagesTable) (max_storage : Nat) :
    MessagesTable × Nat :=
  let top_ids := topIds table max_storage
  (table.filter (fun r => decide (r.id ∈ top_ids)),
   (table.filter (fun r => !(decide (r.id ∈ top_ids)))).length)

/-! ## `prune_old_messages` (src/db/resolver.rs, lines 227-266) -/

/-- The WHERE predicate `(message->>'nonce')::bigint < $1` of the batched
delete: true only for a row whose JSON `nonce` is present and below the
cutoff; a row without a parsable `nonce` (SQL NULL) never matches. -/
def pruneEligible (cutoff_nonce : Int) (r : MsgRow) : Bool :=
  match r.message.nonce with
  | some n => decide (n < cutoff_nonce)
  | none => false

/-- One iteration of the delete loop: the CTE selects the ids of up to
`batch_size` eligible rows (`ORDER BY id ASC LIMIT $2`; the table list is
in id order, so these are the first eligible rows), the DELETE removes the
rows with those ids, and `rows_affected` is the number of rows removed.
This is the successful execution of one batch, which requires
`batch_size ≥ 0`: a negative bound LIMIT is rejected by PostgreSQL
("LIMIT must not be negative") before any row is touched, an error path
carried by `prune_loop_result` below. -/
def prune_batch (table : MessagesTable) (cutoff_nonce : Int)
    (batch_size : Int) : MessagesTable × Nat :=
  let victims :=
    ((table.filter (pruneEligible cutoff_nonce)).map MsgRow.id).take
      batch_size.toNat
  (table.filter (fun r => !(decide (r.id ∈ victims))),
   (table.filter (fun r => decide (r.id ∈ victims))).length)

/-- The `loop` of `prune_old_messages`: run a batch, add its count to the
running total, and stop when a batch deletes fewer than `batch_size` rows
(the comparison `deleted_count < batch_size` is between `i64` values).
The recursion is fuelled; `none` means the fuel ran out before the loop
exited, i.e. the loop runs longer than the given bound. -/
def prune_loop (cutoff_nonce batch_size : Int) :
    Nat → MessagesTable → Int → Option (MessagesTable × Int)
  | 0, _, _ => none
  | fuel + 1, table, total_deleted =>
    let step := prune_batch table cutoff_nonce batch_size
    let new_total := total_deleted + (step.2 : Int)
    if (step.2 : Int) < batch_size then some (step.1, new_total)
    else prune_loop cutoff_nonce batch_size fuel step.1 new_total

/-- `prune_old_messages`: the cutoff is `Utc::now().timestamp() - retention * 60`
(`now` is passed explicitly here) and the loop starts with a zero total.
`table.length + 1` units of fuel are enough for every terminating run:
each non-final batch removes `batch_size ≥ 1` rows. -/
def prune_old_messages (table : MessagesTable) (now retention batch_size : Int) :
    Option (MessagesTable × Int) :=
  prune_loop (now - retention * 60) batch_size (table.length + 1) table 0

/-- The delete loop as executed, with the database's error path: each
iteration runs `delete_query.execute(pool).await?`, and for a negative
`batch_size` PostgreSQL rejects the bound LIMIT with
"LIMIT must not be negative", so the `?` returns that error from
`prune_old_messages` before any row is touched.  A non-negative batch
executes as `prune_batch` and the loop proceeds as in `prune_loop`;
`some (Except.ok ...)` is a normal return, `some (Except.error ...)` an
early error return, `none` fuel exhaustion (the loop spinning longer
than the bound). -/
def prune_loop_result (cutoff_nonce batch_size : Int) :
    Nat → MessagesTable → Int → Option (Except String (MessagesTable × Int))
  | 0, _, _ => none
  | fuel + 1, table, total_deleted =>
    if batch_size < 0 then
      some (Except.error "LIMIT must not be negative")
    else
      let step := prune_batch table cutoff_nonce batch_size
      let new_total := total_deleted + (step.2 : Int)
      if (step.2 : Int) < batch_size then some (Except.ok (step.1, new_total))
      else prune_loop_result cutoff_nonce batch_size fuel step.1 new_total

/-- `prune_old_messages` over the fallible loop. -/
def prune_old_messages_result (table : MessagesTable)
    (now retention batch_size : Int) :
    Option (Except String (MessagesTable × Int)) :=
  prune_loop_result (now - retention * 60) batch_size (table.length + 1)
    table 0

/-! ## `list_active_indexers` and `get_indexer_stats`
(src/db/resolver.rs, lines 268-353) -/

/-- The WHERE predicate `(CAST(message->>'nonce' AS BIGINT)) > $1` shared by
both queries: strictly greater than the cutoff, NULL never matches. -/
def activeAfter (from_timestamp : Int) (r : MsgRow) : Bool :=
  match r.message.nonce with
  | some n => decide (from_timestamp < n)
  | none => false

/-- The dynamically appended `AND (message->>'graph_account') IN (...)`
clause: present only when an indexer allow-list is supplied. -/
def indexerMatch (indexers : Option (List String)) (acct : String) : Bool :=
  match indexers with
  | none => true
  | some idxs => decide (acct ∈ idxs)

/-- `list_active_indexers`:
`SELECT DISTINCT message->>'graph_account' FROM messages WHERE nonce > $1`
plus the optional allow-list clause.  DISTINCT is deduplication of the
selected column.  This is the row set of the query whenever the generated
SQL is valid — every filter shape except `Some(vec![])`, whose zero
placeholders yield an empty `IN ()` list; that error path is carried by
`list_active_indexers_result` below. -/
def list_active_indexers (table : MessagesTable)
    (indexers : Option (List String)) (from_timestamp : Int) : List String :=
  ((table.filter fun r =>
      activeAfter from_timestamp r &&
        indexerMatch indexers r.message.graph_account).map
    (fun r => r.message.graph_account)).dedup

/-- The `list_active_indexers` call as executed: for `Some(vec![])` the
code joins zero placeholders, so the query ends in
`AND (message->>'graph_account') IN ()` — invalid SQL — and `fetch_all`
returns an error through `map_err(anyhow::Error::new)?`; every other
filter shape produces valid SQL and yields the rows of
`list_active_indexers`. -/
def list_active_indexers_result (table : MessagesTable)
    (indexers : Option (List String)) (from_timestamp : Int) :
    Except String (List String) :=
  match indexers with
  | some [] => Except.error "sql error: empty IN list"
  | _ => Except.ok (list_active_indexers table indexers from_timestamp)

/-- One row of the `get_indexer_stats` result set. -/
structure IndexerStats where
  graph_account : String
  message_count : Int
  subgraphs_count : Int
  deriving DecidableEq, Repr

/-- `get_indexer_stats`:
`SELECT graph_account, COUNT(*), COUNT(DISTINCT message->>'identifier')
 FROM messages WHERE nonce > $1 [AND graph_account IN (...)]
 GROUP BY graph_account` — one output row per distinct `graph_account`
among the rows passing the WHERE clause, counting that group's rows and
its distinct identifiers.  As with `list_active_indexers`, this is the
result set of the query whenever the generated SQL is valid: the
`Some(vec![])` shape produces the same empty `IN ()` error in the source
and no result rows at all, which is why the theorems below condition on
membership in the result. -/
def get_indexer_stats (table : MessagesTable)
    (indexers : Option (List String)) (from_timestamp : Int) :
    List IndexerStats :=
  let rows := table.filter fun r =>
    activeAfter from_timestamp r &&
      indexerMatch indexers r.message.graph_account
  ((rows.map (fun r => r.message.graph_account)).dedup).map fun acct =>
    { graph_account := acct
      message_count :=
        ((rows.filter fun r => r.message.graph_account == acct).length : Int)
      subgraphs_count :=
        (((rows.filter fun r => r.message.graph_account == acct).map
            (fun r => r.message.identifier)).dedup.length : Int) }

/-! ## Message types (src/message_types.rs) -/

/-- The outer envelope delivered by the transport (`GraphcastMessage<T>`
from the SDK): `nonce` is `u64`, the other duplicated fields are strings,
`payload` is the typed inner message. -/
structure GraphcastMessage (T : Type) where
  identifier : String
  nonce : Nat
  graph_account : String
  signature : String
  payload : T
  deriving DecidableEq, Repr

/-- The SDK error constructor used by `valid_outer`
(`MessageError::InvalidFields(anyhow!(...))`); the anyhow payload is the
formatted description string. -/
inductive MessageError where
  | invalidFields (description : String)
  deriving DecidableEq, Repr

/-- `PublicPoiMessage` (src/message_types.rs, lines 18-39). -/
structure PublicPoiMessage where
  identifier : String
  content : String
  nonce : Nat
  network : String
  block_number : Nat
  block_hash : String
  graph_account : String
  deriving DecidableEq, Repr

/-- `SimpleMessage` (src/message_types.rs, lines 70-75). -/
structure SimpleMessage where
  identifier : String
  content : String
  deriving DecidableEq, Repr

/-- `UpgradeIntentMessage` (src/message_types.rs, lines 98-114). -/
structure UpgradeIntentMessage where
  deployment : String
  subgraph_id : String
  new_hash : String
  nonce : Nat
  graph_account : String
  deriving DecidableEq, Repr

/-- `PublicPoiMessage::valid_outer` (src/message_types.rs, lines 41-60):
ok when `nonce`, `graph_account` and `identifier` all equal the
envelope's, an `InvalidFields` error otherwise. -/
def PublicPoiMessage.valid_outer (self : PublicPoiMessage)
    (outer : GraphcastMessage PublicPoiMessage) :
    Except MessageError PublicPoiMessage :=
  if self.nonce = outer.nonce ∧ self.graph_account = outer.graph_account ∧
      self.identifier = outer.identifier then
    Except.ok self
  else
    Except.error (MessageError.invalidFields
      "Radio message wrapped by inconsistent GraphcastMessage")

/-- `SimpleMessage::valid_outer` (src/message_types.rs, lines 77-89):
only `identifier` is checked. -/
def SimpleMessage.valid_outer (self : SimpleMessage)
    (outer : GraphcastMessage SimpleMessage) :
    Except MessageError SimpleMessage :=
  if self.identifier = outer.identifier then
    Except.ok self
  else
    Except.error (MessageError.invalidFields
      "Radio message wrapped by inconsistent GraphcastMessage")

/-- `UpgradeIntentMessage::valid_outer` (src/message_types.rs, lines
116-129): `nonce` and `graph_account` are checked. -/
def UpgradeIntentMessage.valid_outer (self : UpgradeIntentMessage)
    (outer : GraphcastMessage UpgradeIntentMessage) :
    Except MessageError UpgradeIntentMessage :=
  if self.nonce = outer.nonce ∧ self.graph_account = outer.graph_account then
    Except.ok self
  else
    Except.error (MessageError.invalidFields
      "Radio message wrapped by inconsistent GraphcastMessage")

/-! ## Decoder fan-in: `process_message` (src/operator/mod.rs, lines 277-291) -/

/-- The decoded value stored by `add_message`: whichever of the three
envelope instantiations decoded. -/
inductive DecodedMessage where
  | publicPoi (m : GraphcastMessage PublicPoiMessage)
  | upgradeIntent (m : GraphcastMessage UpgradeIntentMessage)
  | simpleTest (m : GraphcastMessage SimpleMessage)
  deriving DecidableEq

/-- A row of the `messages` table as written by the ingestion pipeline:
the serialized decoded envelope under a database-assigned id. -/
structure DbRow where
  id : Int
  message : DecodedMessage
  deriving DecidableEq

/-- A raw transport message: opaque payload bytes and a content topic. -/
structure WakuMessage where
  payload : List Nat
  content_topic : String
  deriving DecidableEq

/-- The three SDK decoders `GraphcastMessage::<T>::decode` (protobuf decode
plus the SDK-side checks, signature recovery and `valid_outer` among them).
They live outside this repository, so `process_message` is parameterized
over them; `none` models `Err(_)`. -/
structure Decoders where
  decodePublicPoi : List Nat → Option (GraphcastMessage PublicPoiMessage)
  decodeUpgradeIntent : List Nat → Option (GraphcastMessage UpgradeIntentMessage)
  decodeSimpleTest : List Nat → Option (GraphcastMessage SimpleMessage)

/-- `add_message` (src/db/resolver.rs, lines 46-62):
`INSERT INTO messages (message) VALUES ($1) RETURNING id`; `bigserial`
assigns the next id above every existing one. -/
def add_message (table : List DbRow) (message : DecodedMessage) :
    List DbRow × Int :=
  let new_id := (table.map DbRow.id).foldr max 0 + 1
  (table ++ [⟨new_id, message⟩], new_id)

/-- `process_message`: try `GraphcastMessage::<PublicPoiMessage>::decode`,
then `::<UpgradeIntentMessage>`, then `::<SimpleMessage>`; the first
success is inserted with `add_message`; if all three fail the result is
`Err(anyhow!("Unsupported message types"))` and nothing is inserted. -/
def process_message (d : Decoders) (table : List DbRow) (msg : WakuMessage) :
    Except String (List DbRow × Int) :=
  match d.decodePublicPoi msg.payload with
  | some m => Except.ok (add_message table (DecodedMessage.publicPoi m))
  | none =>
    match d.decodeUpgradeIntent msg.payload with
    | some m => Except.ok (add_message table (DecodedMessage.upgradeIntent m))
    | none =>
      match d.decodeSimpleTest msg.payload with
      | some m => Except.ok (add_message table (DecodedMessage.simpleTest m))
      | none => Except.error "Unsupported message types"

/-! ## The summary tick of the scheduler loop
(src/operator/mod.rs, lines 167-219) -/

/-- The outcome of one `timeout(update_timeout, op).await` in the summary
arm: `timedOut` is the outer `Err(Elapsed)`, `failed` the inner
`Ok(Err(e))`, `completed` the inner `Ok(Ok(v))`. -/
inductive OpOutcome (α : Type) where
  | timedOut
  | failed (err : String)
  | completed (value : α)
  deriving DecidableEq

/-- What one summary-tick iteration does to the process: either it
completes, with the log lines it emitted and the final values of the
`PRUNED_MESSAGES` and `CACHED_MESSAGES` gauges (none = not set), or the
thread panics with a message. -/
inductive TickResult where
  | completed (logs : List String) (pruned_gauge : Option Int)
      (cached_gauge : Option Int)
  | panicked (message : String)
  deriving DecidableEq

/-- The `summary_interval.tick()` arm of `RadioOperator::run`, with the
outcome of each timeout-wrapped database call as input.
`retain_max_storage` runs only when `max_storage` is configured; its
timeout and error are logged and skipped, and so are
`prune_old_messages`'s.  The `count_messages` call is different in the
source: `timeout(update_timeout, count_messages(&self.db)).await` is
unwrapped with `.expect("could not count messages")`, so an elapsed
timeout panics; the match below the `expect` sees only the inner database
result, logging its `Err` with the text "Database query for message count
timed out". -/
def summary_tick (max_storage : Option Int)
    (retain_result prune_result count_result : OpOutcome Int) : TickResult :=
  let step1 : List String × Int × Option Int :=
    match max_storage, retain_result with
    | none, _ => ([], 0, none)
    | some _, OpOutcome.timedOut =>
        (["Pruning by max storage timed out"], 0, none)
    | some _, OpOutcome.failed _ =>
        (["Error during pruning by max storage"], 0, none)
    | some _, OpOutcome.completed n => ([], n, some n)
  let step2 : List String × Int × Option Int :=
    match prune_result with
    | OpOutcome.timedOut =>
        (step1.1 ++ ["Pruning by retention timed out"], step1.2.1, step1.2.2)
    | OpOutcome.failed _ =>
        (step1.1 ++ ["Error during pruning by retention"], step1.2.1, step1.2.2)
    | OpOutcome.completed n =>
        (step1.1, step1.2.1 + n, some (step1.2.1 + n))
  match count_result with
  | OpOutcome.timedOut => TickResult.panicked "could not count messages"
  | OpOutcome.failed _ =>
      TickResult.completed
        (step2.1 ++ ["Database query for message count timed out"])
        step2.2.2 none
  | OpOutcome.completed c =>
      TickResult.completed (step2.1 ++ ["Monitoring summary"])
        step2.2.2 (some c)

/-! ## The watchdog of the main loop (src/operator/mod.rs, lines 108-148)

`run` spawns ONE task before entering the loop:
`tokio::spawn(async move { sleep(iteration_timeout).await; skip_iteration.store(true) })`
with `iteration_timeout = 180 s`.  The task sets the skip flag once, 180
seconds after the loop starts, and never again; each `tick` arm that sees
the flag resets it and `continue`s without doing its work.  The model
below runs the loop over a list of per-iteration work durations (seconds):
at each iteration boundary the spawned task fires if its sleep has
elapsed and it has not fired yet; an iteration that observes the flag
skips (recorded `true`, consuming no time), otherwise it works for its
duration (recorded `false`). -/

def run_loop_aux : List Nat → Nat → Bool → Bool → List Bool
  | [], _, _, _ => []
  | d :: rest, time, fired, skip =>
    let fire := !fired && decide (180 ≤ time)
    if skip || fire then
      true :: run_loop_aux rest time (fired || fire) false
    else
      false :: run_loop_aux rest (time + d) (fired || fire) false

/-- The main loop of `RadioOperator::run` restricted to its watchdog
behaviour: given the work duration of each iteration, the list of
which iterations skipped their work. -/
def run_loop (durations : List Nat) : List Bool :=
  run_loop_aux durations 0 false false

/-! ## Concrete tables used to instantiate the theorems -/

/-- Two rows, one on each side of the cutoff used in the pruning scenario
(retention 1 minute at `now = 100`, so cutoff nonce 40). -/
def pruneDemoTable : MessagesTable :=
  [⟨1, ⟨some 10, "a1", "Qm1"⟩⟩, ⟨2, ⟨some 90, "a1", "Qm1"⟩⟩]

/-- Three eligible rows and one with no parsable nonce, pruned in batches
of 2 in the termination scenario. -/
def pruneLoopDemoTable : MessagesTable :=
  [⟨1, ⟨some 10, "a1", "Qm1"⟩⟩, ⟨2, ⟨some 20, "a1", "Qm1"⟩⟩,
   ⟨3, ⟨some 30, "a2", "Qm2"⟩⟩, ⟨4, ⟨none, "a2", "Qm2"⟩⟩]

/-- Five rows inserted in order, capped to the newest three in the
size-cap scenario. -/
def retainDemoTable : MessagesTable :=
  [⟨1, ⟨some 10, "a1", "Qm1"⟩⟩, ⟨2, ⟨some 20, "a1", "Qm1"⟩⟩,
   ⟨3, ⟨some 30, "a2", "Qm1"⟩⟩, ⟨4, ⟨some 40, "a2", "Qm2"⟩⟩,
   ⟨5, ⟨some 50, "a3", "Qm2"⟩⟩]

/-- One active row, used when exercising the allow-list clause of the
active-senders query. -/
def filterDemoTable : MessagesTable := [⟨1, ⟨some 5, "a1", "Qm1"⟩⟩]

/-- The stats scenario: sender `a1` has two rows sharing one identifier,
sender `a2` one row. -/
def statsDemoTable : MessagesTable :=
  [⟨1, ⟨some 1707328517, "a1", "QmUnique1"⟩⟩,
   ⟨2, ⟨some 1707328518, "a1", "QmUnique1"⟩⟩,
   ⟨3, ⟨some 1707328519, "a2", "QmUnique2"⟩⟩]

/-! ## Theorems -/

/-- Unfolding one iteration of the delete loop. -/
theorem prune_loop_succ (cutoff batch : Int) (fuel : Nat)
    (table : MessagesTable) (total : Int) :
    prune_loop cutoff batch (fuel + 1) table total =
      if ((prune_batch table cutoff batch).2 : Int) < batch then
        some ((prune_batch table cutoff batch).1,
          total + ((prune_batch table cutoff batch).2 : Int))
      else
        prune_loop cutoff batch fuel (prune_batch table cutoff batch).1
          (total + ((prune_batch table cutoff batch).2 : Int)) := rfl

/-- Partitioning a list by a boolean predicate splits its length. -/
theorem length_filter_add_length_filter_not {α : Type} (p : α → Bool)
    (l : List α) :
    (l.filter p).length + (l.filter fun a => !(p a)).length = l.length := by
  induction l with
  | nil => rfl
  | cons a t ih => by_cases h : p a <;> simp [List.filter_cons, h] <;> omega

/-- In a descending sorted list without duplicates, an element is among the
first `n` exactly when fewer than `n` elements are strictly greater. -/
theorem mem_take_sorted_desc {s : List Int} (hs : List.Sorted (· ≥ ·) s)
    (hnd : s.Nodup) (n : Nat) (i : Int) :
    i ∈ s.take n ↔ i ∈ s ∧ s.countP (fun j => decide (i < j)) < n := by
  induction s generalizing n with
  | nil => simp
  | cons a t ih =>
    rw [List.sorted_cons] at hs
    obtain ⟨ha, hts⟩ := hs
    rw [List.nodup_cons] at hnd
    obtain ⟨hat, hnt⟩ := hnd
    cases n with
    | zero => simp
    | succ m =>
      rw [List.take_succ_cons]
      by_cases hia : i = a
      · subst hia
        have hc : List.countP (fun j => decide (i < j)) (i :: t) = 0 := by
          rw [List.countP_eq_zero]
          intro b hb
          simp only [decide_eq_true_eq, not_lt]
          rcases List.mem_cons.mp hb with rfl | hbt
          · exact le_refl _
          · exact ha b hbt
        simp [hc]
      · have hcount : List.countP (fun j => decide (i < j)) (a :: t) =
            List.countP (fun j => decide (i < j)) t + if i < a then 1 else 0 := by
          rw [List.countP_cons]
          simp
        by_cases hit : i ∈ t
        · have hia2 : i < a := lt_of_le_of_ne (ha i hit) hia
          rw [List.mem_cons, List.mem_cons]
          rw [hcount, if_pos hia2]
          rw [ih hts hnt]
          constructor
          · rintro (rfl | ⟨_, hcnt⟩)
            · exact absurd rfl hia
            · exact ⟨Or.inr hit, by omega⟩
          · rintro ⟨_, hcnt⟩
            exact Or.inr ⟨hit, by omega⟩
        · constructor
          · intro h
            rcases List.mem_cons.mp h with rfl | h2
            · exact absurd rfl hia
            · exact absurd (List.take_subset m t h2) hit
          · rintro ⟨hmem, _⟩
            rcases List.mem_cons.mp hmem with rfl | h2
            · exact absurd rfl hia
            · exact absurd h2 hit

/-- Membership in the id list selected by
`ORDER BY id DESC LIMIT max_storage`: an id is kept exactly when fewer
than `max_storage` ids are strictly greater. -/
theorem mem_topIds_iff (table : MessagesTable)
    (hnd : (table.map MsgRow.id).Nodup) (n : Nat) (i : Int) :
    i ∈ topIds table n ↔
      i ∈ table.map MsgRow.id ∧
        (table.map MsgRow.id).countP (fun j => decide (i < j)) < n := by
  unfold topIds
  have hperm := List.perm_insertionSort (· ≥ ·) (table.map MsgRow.id)
  have hsorted := List.sorted_insertionSort (· ≥ ·) (table.map MsgRow.id)
  have hnd2 : (List.insertionSort (· ≥ ·) (table.map MsgRow.id)).Nodup :=
    hperm.nodup_iff.mpr hnd
  rw [mem_take_sorted_desc hsorted hnd2 n i, hperm.mem_iff, hperm.countP_eq]

/-- C2: after `retain_max_storage(pool, n)`, at most `n` rows remain,
namely the rows with the `n` highest ids (the rows with fewer than `n`
rows above them), the returned value is the number of rows deleted, and
when `n` is at least the current row count nothing is deleted. -/
theorem retain_max_storage_spec (table : MessagesTable) (n : Nat)
    (hnd : (table.map MsgRow.id).Nodup) :
    (retain_max_storage table n).1.length ≤ n ∧
    (∀ r, r ∈ (retain_max_storage table n).1 ↔
      r ∈ table ∧
        (table.map MsgRow.id).countP (fun j => decide (r.id < j)) < n) ∧
    (retain_max_storage table n).2 =
      table.length - (retain_max_storage table n).1.length ∧
    (table.length ≤ n →
      (retain_max_storage table n).1 = table ∧
        (retain_max_storage table n).2 = 0) := by
  refine ⟨?_, ?_, ?_, ?_⟩
  · -- at most n rows remain
    have hsl : ((retain_max_storage table n).1.map MsgRow.id).Sublist
        (table.map MsgRow.id) := (List.filter_sublist table).map MsgRow.id
    have hndrem : ((retain_max_storage table n).1.map MsgRow.id).Nodup :=
      hsl.nodup hnd
    have hsub : ((retain_max_storage table n).1.map MsgRow.id) ⊆
        topIds table n := by
      intro x hx
      obtain ⟨r, hr, rfl⟩ := List.mem_map.mp hx
      have := (List.mem_filter.mp hr).2
      simpa using this
    have h1 := (hndrem.subperm hsub).length_le
    have h2 : (topIds table n).length ≤ n := by
      unfold topIds
      exact List.length_take_le _ _
    rw [List.length_map] at h1
    omega
  · -- exactly the rows with the n highest ids
    intro r
    rw [show (retain_max_storage table n).1 =
      table.filter (fun r => decide (r.id ∈ topIds table n)) from rfl]
    rw [List.mem_filter]
    simp only [decide_eq_true_eq]
    rw [mem_topIds_iff table hnd]
    constructor
    · rintro ⟨hr, _, hcnt⟩
      exact ⟨hr, hcnt⟩
    · rintro ⟨hr, hcnt⟩
      exact ⟨hr, List.mem_map_of_mem _ hr, hcnt⟩
  · -- returned count
    have := length_filter_add_length_filter_not
      (fun r => decide (r.id ∈ topIds table n)) table
    rw [show (retain_max_storage table n).2 =
      (table.filter fun r => !(decide (r.id ∈ topIds table n))).length from rfl]
    rw [show (retain_max_storage table n).1 =
      table.filter (fun r => decide (r.id ∈ topIds table n)) from rfl]
    omega
  · -- n at least the row count: nothing is deleted
    intro hn
    have hall : ∀ r ∈ table, r.id ∈ topIds table n := by
      intro r hr
      rw [mem_topIds_iff table hnd]
      refine ⟨List.mem_map_of_mem _ hr, ?_⟩
      have hlt : (table.map MsgRow.id).countP (fun j => decide (r.id < j)) <
          (table.map MsgRow.id).length := by
        have hle : (table.map MsgRow.id).countP (fun j => decide (r.id < j)) ≤
            (table.map MsgRow.id).length :=
          List.countP_le_length (fun j => decide (r.id < j))
        have hne : (table.map MsgRow.id).countP (fun j => decide (r.id < j)) ≠
            (table.map MsgRow.id).length := by
          intro h
          rw [List.countP_eq_length] at h
          have := h r.id (List.mem_map_of_mem _ hr)
          simp at this
        omega
      rw [List.length_map] at hlt
      omega
    constructor
    · rw [show (retain_max_storage table n).1 =
        table.filter (fun r => decide (r.id ∈ topIds table n)) from rfl]
      rw [List.filter_eq_self]
      intro r hr
      simpa using hall r hr
    · rw [show (retain_max_storage table n).2 =
        (table.filter fun r => !(decide (r.id ∈ topIds table n))).length from
        rfl]
      rw [List.length_eq_zero, List.filter_eq_nil_iff]
      intro r hr
      simpa using hall r hr

/-- C2 witness: capping the five-row table at 3 keeps rows 3, 4, 5 and
reports 2 deletions. -/
theorem retain_max_storage_spec_witness :
    (retain_max_storage retainDemoTable 3).1.length ≤ 3 ∧
    (∀ r, r ∈ (retain_max_storage retainDemoTable 3).1 ↔
      r ∈ retainDemoTable ∧
        (retainDemoTable.map MsgRow.id).countP
          (fun j => decide (r.id < j)) < 3) ∧
    (retain_max_storage retainDemoTable 3).2 =
      retainDemoTable.length - (retain_max_storage retainDemoTable 3).1.length ∧
    (retainDemoTable.length ≤ 3 →
      (retain_max_storage retainDemoTable 3).1 = retainDemoTable ∧
        (retain_max_storage retainDemoTable 3).2 = 0) :=
  retain_max_storage_spec retainDemoTable 3 (by decide)

/-- Removing the rows whose id is among the first `n` ids drops the first
`n` rows, when ids are pairwise distinct. -/
theorem filter_not_mem_take :
    ∀ (L : MessagesTable), (L.map MsgRow.id).Nodup → ∀ n : Nat,
      L.filter (fun r => !(decide (r.id ∈ (L.map MsgRow.id).take n))) =
        L.drop n := by
  intro L
  induction L with
  | nil => intro _ n; simp
  | cons x t ih =>
    intro hnd n
    rw [List.map_cons, List.nodup_cons] at hnd
    obtain ⟨hx, hnt⟩ := hnd
    cases n with
    | zero => simp
    | succ m =>
      rw [List.map_cons, List.take_succ_cons, List.drop_succ_cons,
        List.filter_cons]
      have hxmem : (!(decide (x.id ∈ x.id :: (t.map MsgRow.id).take m))) =
          false := by simp
      rw [hxmem]
      simp only [Bool.false_eq_true, if_false]
      have hcong : ∀ r ∈ t,
          (!(decide (r.id ∈ x.id :: (t.map MsgRow.id).take m))) =
            (!(decide (r.id ∈ (t.map MsgRow.id).take m))) := by
        intro r hr
        have hne : r.id ≠ x.id := by
          intro h
          exact hx (h ▸ List.mem_map_of_mem MsgRow.id hr)
        by_cases hmem : r.id ∈ (t.map MsgRow.id).take m <;>
          simp [List.mem_cons, hne, hmem]
      rw [List.filter_congr hcong, ih hnt m]

/-- The ids of the rows whose id lies in a given id list. -/
theorem map_id_filter_mem (v : List Int) :
    ∀ L : MessagesTable,
      (L.filter (fun r => decide (r.id ∈ v))).map MsgRow.id =
        (L.map MsgRow.id).filter (fun i => decide (i ∈ v)) := by
  intro L
  induction L with
  | nil => rfl
  | cons x t ih =>
    rw [List.filter_cons, List.map_cons, List.filter_cons]
    by_cases h : x.id ∈ v <;> simp [h, ih]

/-- A DELETE whose id set is drawn from the table hits one row per id. -/
theorem length_filter_mem (L : MessagesTable)
    (hnd : (L.map MsgRow.id).Nodup) (v : List Int) (hv : v.Nodup)
    (hsub : v ⊆ L.map MsgRow.id) :
    (L.filter (fun r => decide (r.id ∈ v))).length = v.length := by
  have hperm : ((L.map MsgRow.id).filter (fun i => decide (i ∈ v))).Perm v := by
    rw [List.perm_ext_iff_of_nodup (hnd.filter _) hv]
    intro a
    rw [List.mem_filter]
    simp only [decide_eq_true_eq]
    exact ⟨fun h => h.2, fun h => ⟨hsub h, h⟩⟩
  calc (L.filter (fun r => decide (r.id ∈ v))).length
      = ((L.filter (fun r => decide (r.id ∈ v))).map MsgRow.id).length := by
        rw [List.length_map]
    _ = v.length := by rw [map_id_filter_mem, hperm.length_eq]

/-- The delete loop with a positive batch size and enough fuel removes
exactly the eligible rows and counts them. -/
theorem prune_loop_spec (cutoff batch : Int) (hb : 0 < batch) :
    ∀ (fuel : Nat) (table : MessagesTable) (total : Int),
      (table.map MsgRow.id).Nodup →
      (table.filter (pruneEligible cutoff)).length < fuel →
      prune_loop cutoff batch fuel table total =
        some (table.filter (fun r => !(pruneEligible cutoff r)),
          total + ((table.filter (pruneEligible cutoff)).length : Int)) := by
  intro fuel
  induction fuel with
  | zero => intro table total _ hlt; omega
  | succ fuel ih =>
    intro table total hnd hlt
    rw [prune_loop_succ]
    set E := table.filter (pruneEligible cutoff) with hE
    set victims := (E.map MsgRow.id).take batch.toNat with hvic
    have hEsub : E.Sublist table := List.filter_sublist table
    have hEid_nodup : (E.map MsgRow.id).Nodup := (hEsub.map MsgRow.id).nodup hnd
    have hvic_nodup : victims.Nodup :=
      (List.take_sublist _ _).nodup hEid_nodup
    have hvic_subE : victims ⊆ E.map MsgRow.id := List.take_subset _ _
    have hvic_sub : victims ⊆ table.map MsgRow.id := fun i hi =>
      List.map_subset MsgRow.id hEsub.subset (hvic_subE hi)
    have hstep2 : (prune_batch table cutoff batch).2 = victims.length := by
      rw [show (prune_batch table cutoff batch).2 =
        (table.filter (fun r => decide (r.id ∈ victims))).length from rfl]
      exact length_filter_mem table hnd victims hvic_nodup hvic_sub
    have hvlen : victims.length = min batch.toNat E.length := by
      rw [hvic, List.length_take, List.length_map]
    have hbn : ((batch.toNat : Nat) : Int) = batch :=
      Int.toNat_of_nonneg (le_of_lt hb)
    have hvic_elig : ∀ r ∈ table, r.id ∈ victims →
        pruneEligible cutoff r = true := by
      intro r hr hivic
      obtain ⟨e, heE, heid⟩ := List.mem_map.mp (hvic_subE hivic)
      have heT : e ∈ table := hEsub.subset heE
      have hre : e = r := List.inj_on_of_nodup_map hnd heT hr heid
      have helig : pruneEligible cutoff e = true := (List.mem_filter.mp heE).2
      rw [← hre]
      exact helig
    by_cases hcase : ((prune_batch table cutoff batch).2 : Int) < batch
    · rw [if_pos hcase]
      have hElen : E.length < batch.toNat := by
        by_contra hge
        push_neg at hge
        rw [hstep2, hvlen, Nat.min_eq_left hge] at hcase
        omega
      have hvic_all : victims = E.map MsgRow.id := by
        rw [hvic]
        exact List.take_of_length_le (by rw [List.length_map]; omega)
      have htab : (prune_batch table cutoff batch).1 =
          table.filter (fun r => !(pruneEligible cutoff r)) := by
        rw [show (prune_batch table cutoff batch).1 =
          table.filter (fun r => !(decide (r.id ∈ victims))) from rfl]
        apply List.filter_congr
        intro r hr
        have hpred : (decide (r.id ∈ victims)) = pruneEligible cutoff r := by
          cases helig : pruneEligible cutoff r with
          | true =>
            rw [hvic_all]
            exact decide_eq_true
              (List.mem_map_of_mem MsgRow.id (List.mem_filter.mpr ⟨hr, helig⟩))
          | false =>
            apply decide_eq_false
            intro hmem
            rw [hvic_elig r hr hmem] at helig
            exact Bool.true_eq_false.mp helig
        rw [hpred]
      rw [htab, hstep2, hvlen, Nat.min_eq_right (le_of_lt hElen)]
    · rw [if_neg hcase]
      have hble : batch.toNat ≤ E.length := by
        by_contra hgt
        push_neg at hgt
        rw [hstep2, hvlen, Nat.min_eq_right (le_of_lt hgt)] at hcase
        omega
      have hmin : min batch.toNat E.length = batch.toNat :=
        Nat.min_eq_left hble
      have htab2eq : (prune_batch table cutoff batch).1 =
          table.filter (fun r => !(decide (r.id ∈ victims))) := rfl
      have hnd2 : ((prune_batch table cutoff batch).1.map MsgRow.id).Nodup := by
        rw [htab2eq]
        exact ((List.filter_sublist table).map MsgRow.id).nodup hnd
      have helig2 : (prune_batch table cutoff batch).1.filter
          (pruneEligible cutoff) = E.drop batch.toNat := by
        rw [htab2eq, List.filter_filter]
        have h2 : E.filter (fun a => !(decide (a.id ∈ victims))) =
            table.filter (fun a =>
              pruneEligible cutoff a && !(decide (a.id ∈ victims))) := by
          rw [hE, List.filter_filter]
          exact List.filter_congr (fun r _ => Bool.and_comm _ _)
        rw [← h2]
        exact filter_not_mem_take E hEid_nodup batch.toNat
      have hkeep : (prune_batch table cutoff batch).1.filter
          (fun r => !(pruneEligible cutoff r)) =
          table.filter (fun r => !(pruneEligible cutoff r)) := by
        rw [htab2eq, List.filter_filter]
        apply List.filter_congr
        intro r hr
        cases helig : pruneEligible cutoff r with
        | true => simp [helig]
        | false =>
          have hne : r.id ∉ victims := by
            intro hmem
            rw [hvic_elig r hr hmem] at helig
            exact Bool.true_eq_false.mp helig
          simp [helig, hne]
      have hlen2 : ((prune_batch table cutoff batch).1.filter
          (pruneEligible cutoff)).length = E.length - batch.toNat := by
        rw [helig2, List.length_drop]
      have hfuel2 : ((prune_batch table cutoff batch).1.filter
          (pruneEligible cutoff)).length < fuel := by
        rw [hlen2]
        omega
      rw [ih (prune_batch table cutoff batch).1
        (total + ((prune_batch table cutoff batch).2 : Int)) hnd2 hfuel2]
      rw [hkeep, hlen2, hstep2, hvlen, hmin]
      have harith : total + ((batch.toNat : Nat) : Int) +
          (((E.length - batch.toNat : Nat) : Nat) : Int) =
          total + ((E.length : Nat) : Int) := by omega
      rw [harith]

/-- C1: for retention `r ≥ 0` and batch `b > 0`, `prune_old_messages`
deletes exactly the rows whose JSON `nonce` is strictly below
`now - r*60`, returns the number of rows deleted, and leaves every row
without a parsable `nonce` in place (the predicate excludes it). -/
theorem prune_old_messages_spec (table : MessagesTable)
    (now retention batch_size : Int) (hr : 0 ≤ retention)
    (hb : 0 < batch_size) (hnd : (table.map MsgRow.id).Nodup) :
    prune_old_messages table now retention batch_size =
      some (table.filter (fun r => !(pruneEligible (now - retention * 60) r)),
        ((table.filter (pruneEligible (now - retention * 60))).length : Int)) ∧
    ∀ r ∈ table, r.message.nonce = none →
      r ∈ table.filter (fun r => !(pruneEligible (now - retention * 60) r)) := by
  constructor
  · unfold prune_old_messages
    have hfuel : (table.filter (pruneEligible (now - retention * 60))).length <
        table.length + 1 := by
      have := List.length_filter_le (pruneEligible (now - retention * 60)) table
      omega
    have h := prune_loop_spec (now - retention * 60) batch_size hb
      (table.length + 1) table 0 hnd hfuel
    rw [h, zero_add]
  · intro r hr hn
    rw [List.mem_filter]
    refine ⟨hr, ?_⟩
    simp [pruneEligible, hn]

/-- C1 witness: retention 1 minute at `now = 100` deletes the one row with
nonce 10 and keeps the row with nonce 90. -/
theorem prune_old_messages_spec_witness :
    (prune_old_messages pruneDemoTable 100 1 1000 =
      some (pruneDemoTable.filter
          (fun r => !(pruneEligible (100 - 1 * 60) r)),
        ((pruneDemoTable.filter (pruneEligible (100 - 1 * 60))).length : Int)) ∧
    ∀ r ∈ pruneDemoTable, r.message.nonce = none →
      r ∈ pruneDemoTable.filter
        (fun r => !(pruneEligible (100 - 1 * 60) r))) :=
  prune_old_messages_spec pruneDemoTable 100 1 1000 (by decide) (by decide)
    (by decide)

/-- Unfolding one iteration of the fallible delete loop. -/
theorem prune_loop_result_succ (cutoff batch : Int) (fuel : Nat)
    (table : MessagesTable) (total : Int) :
    prune_loop_result cutoff batch (fuel + 1) table total =
      if batch < 0 then some (Except.error "LIMIT must not be negative")
      else if ((prune_batch table cutoff batch).2 : Int) < batch then
        some (Except.ok ((prune_batch table cutoff batch).1,
          total + ((prune_batch table cutoff batch).2 : Int)))
      else prune_loop_result cutoff batch fuel
        (prune_batch table cutoff batch).1
        (total + ((prune_batch table cutoff batch).2 : Int)) := rfl

/-- On a non-negative batch size the database never raises the LIMIT
error, so the fallible loop is the error-free loop with its result
wrapped in `Except.ok`. -/
theorem prune_loop_result_eq_of_nonneg (cutoff batch : Int)
    (hb : 0 ≤ batch) :
    ∀ (fuel : Nat) (table : MessagesTable) (total : Int),
      prune_loop_result cutoff batch fuel table total =
        Option.map Except.ok (prune_loop cutoff batch fuel table total) := by
  intro fuel
  induction fuel with
  | zero => intro table total; rfl
  | succ fuel ih =>
    intro table total
    rw [prune_loop_result_succ, prune_loop_succ, if_neg (by omega : ¬ batch < 0)]
    by_cases hc : ((prune_batch table cutoff batch).2 : Int) < batch
    · rw [if_pos hc, if_pos hc]
      rfl
    · rw [if_neg hc, if_neg hc]
      exact ih _ _

/-- C10 (amended): each successful batch removes at most `batch_size`
rows; for `batch_size ≥ 1` the loop terminates within `table.length + 1`
iterations (each full batch removes `batch_size ≥ 1` eligible rows from a
finite, non-growing set, exiting as soon as a batch deletes fewer); for
`batch_size = 0` the exit condition `deleted_count < batch_size` can
never hold — `deleted_count ≥ 0` and LIMIT 0 deletes nothing — so the
loop never finishes on any amount of fuel; for `batch_size < 0` the
database rejects the bound LIMIT, so the very first iteration returns
the error and the loop terminates at once — `batch_size ≥ 1` is
necessary for successful (non-error) termination, not for termination. -/
theorem prune_loop_termination (cutoff batch : Int) (table : MessagesTable)
    (hnd : (table.map MsgRow.id).Nodup) :
    ((prune_batch table cutoff batch).2 ≤ batch.toNat) ∧
    (0 < batch →
      (prune_loop_result cutoff batch (table.length + 1) table 0).isSome =
        true) ∧
    (batch = 0 → ∀ (fuel : Nat) (total : Int),
      prune_loop_result cutoff batch fuel table total = none) ∧
    (batch < 0 → ∀ (fuel : Nat) (total : Int),
      prune_loop_result cutoff batch (fuel + 1) table total =
        some (Except.error "LIMIT must not be negative")) := by
  refine ⟨?_, ?_, ?_, ?_⟩
  · set E := table.filter (pruneEligible cutoff) with hE
    set victims := (E.map MsgRow.id).take batch.toNat with hvic
    have hEid_nodup : (E.map MsgRow.id).Nodup :=
      ((List.filter_sublist table).map MsgRow.id).nodup hnd
    have hvic_nodup : victims.Nodup :=
      (List.take_sublist _ _).nodup hEid_nodup
    have hvic_sub : victims ⊆ table.map MsgRow.id := fun i hi =>
      List.map_subset MsgRow.id (List.filter_sublist table).subset
        (List.take_subset _ _ hi)
    rw [show (prune_batch table cutoff batch).2 =
      (table.filter (fun r => decide (r.id ∈ victims))).length from rfl]
    rw [length_filter_mem table hnd victims hvic_nodup hvic_sub]
    rw [hvic, List.length_take]
    omega
  · intro hbpos
    have hfuel : (table.filter (pruneEligible cutoff)).length <
        table.length + 1 := by
      have := List.length_filter_le (pruneEligible cutoff) table
      omega
    rw [prune_loop_result_eq_of_nonneg cutoff batch (le_of_lt hbpos)
      (table.length + 1) table 0]
    rw [prune_loop_spec cutoff batch hbpos (table.length + 1) table 0 hnd hfuel]
    rfl
  · intro h0
    subst h0
    have key : ∀ (fuel : Nat) (t : MessagesTable) (total : Int),
        prune_loop_result cutoff 0 fuel t total = none := by
      intro fuel
      induction fuel with
      | zero => intro t total; rfl
      | succ fuel ih =>
        intro t total
        rw [prune_loop_result_succ, if_neg (by omega : ¬ (0 : Int) < 0)]
        have hvic0 : ((t.filter (pruneEligible cutoff)).map MsgRow.id).take
            (0 : Int).toNat = [] := by
          rw [show ((0 : Int).toNat) = 0 from rfl, List.take_zero]
        have hz : (prune_batch t cutoff 0).2 = 0 := by
          rw [show (prune_batch t cutoff 0).2 =
            (t.filter (fun r => decide (r.id ∈
              ((t.filter (pruneEligible cutoff)).map MsgRow.id).take
                (0 : Int).toNat))).length from rfl]
          rw [hvic0]
          simp
        rw [hz]
        rw [if_neg (by omega)]
        exact ih (prune_batch t cutoff 0).1 (total + ((0 : Nat) : Int))
    exact fun fuel total => key fuel table total
  · intro hneg fuel total
    rw [prune_loop_result_succ, if_pos hneg]

/-- C10 witness: pruning the four-row table (three eligible rows) with
batch size 2 terminates with the default fuel, each batch bounded by 2. -/
theorem prune_loop_termination_witness :
    ((prune_batch pruneLoopDemoTable 100 2).2 ≤ (2 : Int).toNat) ∧
    (0 < (2 : Int) →
      (prune_loop_result 100 2 (pruneLoopDemoTable.length + 1)
        pruneLoopDemoTable 0).isSome = true) ∧
    ((2 : Int) = 0 → ∀ (fuel : Nat) (total : Int),
      prune_loop_result 100 2 fuel pruneLoopDemoTable total = none) ∧
    ((2 : Int) < 0 → ∀ (fuel : Nat) (total : Int),
      prune_loop_result 100 2 (fuel + 1) pruneLoopDemoTable total =
        some (Except.error "LIMIT must not be negative")) :=
  prune_loop_termination 100 2 pruneLoopDemoTable (by decide)

/-- C10 (counterexample): with batch size −1 the deletion loop is not
non-terminating — PostgreSQL rejects the negative LIMIT, and
`prune_old_messages` returns that error immediately — so
`batch_size ≥ 1` is not a necessary precondition for termination. -/
theorem prune_loop_negative_batch_counterexample :
    prune_old_messages_result pruneLoopDemoTable 100 1 (-1) =
      some (Except.error "LIMIT must not be negative") ∧
    (prune_old_messages_result pruneLoopDemoTable 100 1 (-1)).isSome =
      true :=
  ⟨rfl, rfl⟩

/-- C5: every row of the `get_indexer_stats` result reports, for its
sender, `message_count` equal to the number of that sender's rows with
`nonce > from_ts` and `subgraphs_count` equal to the number of distinct
identifiers among those rows. -/
theorem get_indexer_stats_spec (table : MessagesTable)
    (indexers : Option (List String)) (from_timestamp : Int)
    (s : IndexerStats) (hs : s ∈ get_indexer_stats table indexers from_timestamp) :
    s.message_count =
      ((table.filter fun r => activeAfter from_timestamp r &&
        (r.message.graph_account == s.graph_account)).length : Int) ∧
    s.subgraphs_count =
      (((table.filter fun r => activeAfter from_timestamp r &&
        (r.message.graph_account == s.graph_account)).map
          (fun r => r.message.identifier)).dedup.length : Int) := by
  unfold get_indexer_stats at hs
  set rows := table.filter (fun r => activeAfter from_timestamp r &&
    indexerMatch indexers r.message.graph_account) with hrows
  obtain ⟨acct, hacct, rfl⟩ := List.mem_map.mp hs
  have hmatch : indexerMatch indexers acct = true := by
    have hacct2 := List.mem_dedup.mp hacct
    obtain ⟨r0, hr0, hr0acct⟩ := List.mem_map.mp hacct2
    have hflt := (List.mem_filter.mp hr0).2
    rw [Bool.and_eq_true] at hflt
    rw [← hr0acct]
    exact hflt.2
  have hfilter : rows.filter (fun r => r.message.graph_account == acct) =
      table.filter (fun r => activeAfter from_timestamp r &&
        (r.message.graph_account == acct)) := by
    rw [hrows, List.filter_filter]
    apply List.filter_congr
    intro r _
    cases heq : r.message.graph_account == acct with
    | true =>
      have hra : r.message.graph_account = acct := by simpa using heq
      simp [hra, hmatch]
    | false => simp [heq]
  constructor
  · show ((rows.filter fun r => r.message.graph_account == acct).length : Int) =
      ((table.filter fun r => activeAfter from_timestamp r &&
        (r.message.graph_account == acct)).length : Int)
    rw [hfilter]
  · show (((rows.filter fun r => r.message.graph_account == acct).map
        (fun r => r.message.identifier)).dedup.length : Int) =
      (((table.filter fun r => activeAfter from_timestamp r &&
        (r.message.graph_account == acct)).map
          (fun r => r.message.identifier)).dedup.length : Int)
    rw [hfilter]

/-- C5 witness: in the stats scenario, sender `a1` has two rows sharing
one identifier, so its result row reports `message_count = 2` and
`subgraphs_count = 1`. -/
theorem get_indexer_stats_spec_witness :
    (⟨"a1", 2, 1⟩ : IndexerStats).message_count =
      ((statsDemoTable.filter fun r => activeAfter 1707328516 r &&
        (r.message.graph_account ==
          (⟨"a1", 2, 1⟩ : IndexerStats).graph_account)).length : Int) ∧
    (⟨"a1", 2, 1⟩ : IndexerStats).subgraphs_count =
      (((statsDemoTable.filter fun r => activeAfter 1707328516 r &&
        (r.message.graph_account ==
          (⟨"a1", 2, 1⟩ : IndexerStats).graph_account)).map
          (fun r => r.message.identifier)).dedup.length : Int) :=
  get_indexer_stats_spec statsDemoTable (some ["a1", "a2"]) 1707328516
    ⟨"a1", 2, 1⟩ (by decide)

/-- C4: for every cutoff `from_ts`, `list_active_indexers(pool, None, from_ts)`
returns exactly the distinct `graph_account` values of rows whose JSON
`nonce` is strictly greater than `from_ts`; a row with `nonce = from_ts`
is excluded (its `activeAfter` predicate is false). -/
theorem list_active_indexers_spec (table : MessagesTable) (from_timestamp : Int) :
    (list_active_indexers table none from_timestamp).Nodup ∧
    (∀ acct, acct ∈ list_active_indexers table none from_timestamp ↔
      ∃ r ∈ table, r.message.graph_account = acct ∧
        ∃ n, r.message.nonce = some n ∧ from_timestamp < n) ∧
    (∀ r ∈ table, r.message.nonce = some from_timestamp →
      activeAfter from_timestamp r = false) := by
  refine ⟨List.nodup_dedup _, fun acct => ?_, fun r _ hn => by simp [activeAfter, hn]⟩
  simp only [list_active_indexers, List.mem_dedup, List.mem_map,
    List.mem_filter, indexerMatch, Bool.and_true]
  constructor
  · rintro ⟨r, ⟨hr, hact⟩, rfl⟩
    refine ⟨r, hr, rfl, ?_⟩
    unfold activeAfter at hact
    cases h : r.message.nonce with
    | none => rw [h] at hact; simp at hact
    | some n => rw [h] at hact; exact ⟨n, rfl, by simpa using hact⟩
  · rintro ⟨r, hr, rfl, n, hn, hlt⟩
    exact ⟨r, ⟨hr, by simp [activeAfter, hn, hlt]⟩, rfl⟩

/-- C8 (amended): for every non-empty allow-list and cutoff, the call
succeeds and its result set equals the intersection of the unfiltered
result set with the allow-list; for the empty allow-list the generated
query contains an empty `IN ()` list — invalid SQL — and the call
returns an error instead of a result set. -/
theorem list_active_indexers_filter_inter (table : MessagesTable)
    (allow : List String) (from_timestamp : Int) :
    (allow ≠ [] →
      list_active_indexers_result table (some allow) from_timestamp =
        Except.ok (list_active_indexers table (some allow) from_timestamp) ∧
      (list_active_indexers table (some allow) from_timestamp).toFinset =
        (list_active_indexers table none from_timestamp).toFinset ∩
          allow.toFinset) ∧
    (allow = [] →
      list_active_indexers_result table (some allow) from_timestamp =
        Except.error "sql error: empty IN list") := by
  constructor
  · intro hne
    constructor
    · cases allow with
      | nil => exact absurd rfl hne
      | cons a l => rfl
    · ext acct
      simp only [List.mem_toFinset, Finset.mem_inter, list_active_indexers,
        List.mem_dedup, List.mem_map, List.mem_filter, indexerMatch,
        Bool.and_true, Bool.and_eq_true, decide_eq_true_eq]
      constructor
      · rintro ⟨r, ⟨hr, hact, hmem⟩, rfl⟩
        exact ⟨⟨r, ⟨hr, hact⟩, rfl⟩, hmem⟩
      · rintro ⟨⟨r, ⟨hr, hact⟩, rfl⟩, hmem⟩
        exact ⟨r, ⟨hr, hact, hmem⟩, rfl⟩
  · intro h
    subst h
    rfl

/-- C8 (counterexample): with the empty allow-list over a table holding
one active sender, the source builds `IN ()` and the call returns an
error, so no result set exists that equals the (empty) intersection. -/
theorem list_active_indexers_empty_filter_counterexample :
    ¬ ∃ result,
      list_active_indexers_result filterDemoTable (some []) 1 =
        Except.ok result ∧
      result.toFinset =
        (list_active_indexers filterDemoTable none 1).toFinset ∩
          ([] : List String).toFinset := by
  rintro ⟨result, hres, -⟩
  have h2 : Except.error "sql error: empty IN list" =
      (Except.ok result : Except String (List String)) := hres
  exact Except.noConfusion h2

/-- C9: each payload type's `valid_outer` returns `Ok` exactly when every
duplicated field the payload carries (`nonce`, `graph_account`,
`identifier` for `PublicPoiMessage`; `nonce`, `graph_account` for
`UpgradeIntentMessage`; `identifier` for `SimpleMessage`) equals the
envelope's, and an `InvalidFields` error otherwise. -/
theorem valid_outer_spec :
    (∀ (p : PublicPoiMessage) (outer : GraphcastMessage PublicPoiMessage),
      (p.valid_outer outer = Except.ok p ↔
        p.nonce = outer.nonce ∧ p.graph_account = outer.graph_account ∧
          p.identifier = outer.identifier) ∧
      (¬(p.nonce = outer.nonce ∧ p.graph_account = outer.graph_account ∧
          p.identifier = outer.identifier) →
        p.valid_outer outer = Except.error (MessageError.invalidFields
          "Radio message wrapped by inconsistent GraphcastMessage"))) ∧
    (∀ (u : UpgradeIntentMessage) (outer : GraphcastMessage UpgradeIntentMessage),
      (u.valid_outer outer = Except.ok u ↔
        u.nonce = outer.nonce ∧ u.graph_account = outer.graph_account) ∧
      (¬(u.nonce = outer.nonce ∧ u.graph_account = outer.graph_account) →
        u.valid_outer outer = Except.error (MessageError.invalidFields
          "Radio message wrapped by inconsistent GraphcastMessage"))) ∧
    (∀ (s : SimpleMessage) (outer : GraphcastMessage SimpleMessage),
      (s.valid_outer outer = Except.ok s ↔ s.identifier = outer.identifier) ∧
      (¬ s.identifier = outer.identifier →
        s.valid_outer outer = Except.error (MessageError.invalidFields
          "Radio message wrapped by inconsistent GraphcastMessage"))) := by
  refine ⟨fun p outer => ?_, fun u outer => ?_, fun s outer => ?_⟩ <;>
    constructor <;>
    first
    | (unfold PublicPoiMessage.valid_outer
       split <;> simp_all)
    | (unfold UpgradeIntentMessage.valid_outer
       split <;> simp_all)
    | (unfold SimpleMessage.valid_outer
       split <;> simp_all)

/-- C3: `process_message` attempts the three envelope decoders in the
order `PublicPoi`, `UpgradeIntent`, `SimpleTest`; the first success is
inserted (so a buffer that also decodes as `SimpleTest` still yields
`PublicPoi`), and when all three fail the result is the "unsupported"
error, which carries no insertion. -/
theorem process_message_fan_in (d : Decoders) (table : List DbRow)
    (msg : WakuMessage) :
    (∀ m, d.decodePublicPoi msg.payload = some m →
      process_message d table msg =
        Except.ok (add_message table (DecodedMessage.publicPoi m))) ∧
    (∀ m, d.decodePublicPoi msg.payload = none →
      d.decodeUpgradeIntent msg.payload = some m →
      process_message d table msg =
        Except.ok (add_message table (DecodedMessage.upgradeIntent m))) ∧
    (∀ m, d.decodePublicPoi msg.payload = none →
      d.decodeUpgradeIntent msg.payload = none →
      d.decodeSimpleTest msg.payload = some m →
      process_message d table msg =
        Except.ok (add_message table (DecodedMessage.simpleTest m))) ∧
    (d.decodePublicPoi msg.payload = none →
      d.decodeUpgradeIntent msg.payload = none →
      d.decodeSimpleTest msg.payload = none →
      process_message d table msg = Except.error "Unsupported message types") := by
  refine ⟨fun m h1 => ?_, fun m h1 h2 => ?_, fun m h1 h2 h3 => ?_,
    fun h1 h2 h3 => ?_⟩ <;>
    simp [process_message, h1]
  · simp [h2]
  · simp [h2, h3]
  · simp [h2, h3]

/-- C6: the summary tick evaluated at the failing input.  In the source,
the 5-second timeout around `count_messages` is unwrapped with
`.expect("could not count messages")`, so when that call times out the
tick panics (killing the loop and the process) instead of logging and
continuing as the retain/prune timeouts do — and as the spec requires. -/
theorem summary_tick_count_timeout_panics :
    summary_tick (some 1000) (OpOutcome.completed 0) (OpOutcome.completed 0)
        OpOutcome.timedOut =
      TickResult.panicked "could not count messages" := rfl

/-- After the one-shot watchdog task has fired, no later iteration ever
skips: the flag can never be set again. -/
theorem run_loop_aux_fired (ds : List Nat) :
    ∀ time, run_loop_aux ds time true false = List.replicate ds.length false := by
  induction ds with
  | nil => intro time; rfl
  | cons d rest ih =>
    intro time
    simp [run_loop_aux, ih, List.replicate_succ]

/-- At most one iteration of the loop ever skips its work. -/
theorem run_loop_aux_count (ds : List Nat) :
    ∀ time, (run_loop_aux ds time false false).count true ≤ 1 := by
  induction ds with
  | nil => intro time; simp [run_loop_aux]
  | cons d rest ih =>
    intro time
    by_cases h : 180 ≤ time
    · simp [run_loop_aux, h, run_loop_aux_fired, List.count_replicate]
    · simp [run_loop_aux, h, List.count_cons]
      exact ih (time + d)

/-- C7 (amended): the watchdog is a one-shot timer armed when the loop
starts; it sets the skip flag once, 180 seconds in, regardless of whether
any iteration stalled, so at most one iteration ever skips its work, and
every iteration after the skipped one proceeds normally — in particular a
stall after the timer has fired is not followed by a skipped iteration. -/
theorem run_loop_watchdog_one_shot (durations : List Nat) :
    ((run_loop durations).count true ≤ 1) ∧
    ∀ pre post, run_loop durations = pre ++ true :: post →
      post.count true = 0 := by
  have hc := run_loop_aux_count durations 0
  rw [show run_loop_aux durations 0 false false = run_loop durations from rfl] at hc
  refine ⟨hc, fun pre post hsplit => ?_⟩
  rw [hsplit] at hc
  simp [List.count_append, List.count_cons] at hc
  omega

/-- C7 (counterexample): on the trace where iterations 0 and 2 both stall
(200 s > 180 s each), the claim "every stalled iteration is followed by a
skipped iteration" fails: the watchdog fires only once, so iteration 3
does not skip even though iteration 2 stalled. -/
theorem watchdog_per_stall_counterexample :
    ¬ (∀ i, i < 4 → 180 < List.getD [200, 0, 200, 0] i 0 →
        (run_loop [200, 0, 200, 0]).getD (i + 1) false = true) := by
  decide

end ListenerRadio
